import Mathlib

/-!
# Verification of the Auto-ATS resume-screening pipeline

A shallow embedding of the core pipeline of the Auto-ATS repository:
text chunking (`utils.py`), candidate ranking and score normalization
(`ranking.py`), and resume loading / LLM-backed analysis and per-chunk
aggregation (`processor.py`).

Text is modelled as `List Char` so that every string operation used by the
code (`str.split('.')`, `str.strip()`, `str.lower()`, `os.path.splitext`)
is a structurally recursive, executable Lean function.  Python floats are
modelled as exact rationals (`ℚ`), Python dicts holding the analysis
fields as structures whose possibly-absent keys are `Option` fields, and
calls to the external LLM service as explicit parameters describing the
outcome of the call.
-/

namespace ATS

/-! ## utils.py : `chunk_text` -/

/-- Python `text.split('.')` on a character list: splits at every literal
`'.'`, keeping empty fragments, e.g. `"ab.cd." ↦ ["ab", "cd", ""]`. -/
def splitOnDot : List Char → List (List Char)
  | [] => [[]]
  | c :: rest =>
    if c = '.' then [] :: splitOnDot rest
    else
      match splitOnDot rest with
      | [] => [[c]]
      | w :: ws => (c :: w) :: ws

/-- The whitespace characters removed by Python's default `str.strip()`. -/
def isPySpace (c : Char) : Bool :=
  c = ' ' ∨ c = '\t' ∨ c = '\n' ∨ c = '\r' ∨ c = '\x0b' ∨ c = '\x0c'

/-- Python `s.strip()`: drop whitespace from both ends. -/
def stripChars (l : List Char) : List Char :=
  ((l.dropWhile isPySpace).reverse.dropWhile isPySpace).reverse

/-- `utils.chunk_text` line 37: the sentence list
`[s.strip() for s in text.split('.') if s.strip()]`. -/
def sentencesOf (text : List Char) : List (List Char) :=
  ((splitOnDot text).map stripChars).filter (fun s => ¬ s.isEmpty)

/-- The accumulation loop of `utils.chunk_text` (lines 43-58), returning the
chunks still to be emitted.  `cur` is `current_chunk`, `curLen` is
`current_length`; a sentence whose length would push `current_length` over
the budget flushes a non-empty `current_chunk` first. -/
def chunkLoopAux (budget : Nat) (cur : List (List Char)) (curLen : Nat) :
    List (List Char) → List (List (List Char))
  | [] => if cur.isEmpty then [] else [cur]
  | s :: rest =>
    if curLen + s.length > budget ∧ ¬ cur.isEmpty then
      cur :: chunkLoopAux budget [s] s.length rest
    else
      chunkLoopAux budget (cur ++ [s]) (curLen + s.length) rest

/-- The chunk groups produced by `utils.chunk_text`: each group is the list
of sentences put into one chunk. -/
def chunkGroups (budget : Nat) (sentences : List (List Char)) :
    List (List (List Char)) :=
  chunkLoopAux budget [] 0 sentences

/-- Python `". ".join(sentences)`. -/
def joinDotSpace : List (List Char) → List Char
  | [] => []
  | [s] => s
  | s :: rest => s ++ '.' :: ' ' :: joinDotSpace rest

/-- One rendered chunk: `'. '.join(current_chunk) + '.'`. -/
def renderChunk (g : List (List Char)) : List Char :=
  joinDotSpace g ++ ['.']

/-- `utils.chunk_text(text, max_tokens)` with budget
`chars_per_chunk = max_tokens * 4`. -/
def chunk_text (text : List Char) (max_tokens : Nat) : List (List Char) :=
  (chunkGroups (max_tokens * 4) (sentencesOf text)).map renderChunk

/-- Total character count of the sentences of a chunk group (the quantity
the loop's `current_length` tracks). -/
def sentLen (g : List (List Char)) : Nat :=
  (g.map List.length).sum

theorem chunkLoopAux_join (budget : Nat) :
    ∀ (ss : List (List Char)) (cur : List (List Char)) (curLen : Nat),
      (chunkLoopAux budget cur curLen ss).flatten = cur ++ ss := by
  intro ss
  induction ss with
  | nil =>
    intro cur curLen
    simp only [chunkLoopAux]
    split
    · next h => simp [List.isEmpty_iff.mp h]
    · next _ => simp
  | cons s rest ih =>
    intro cur curLen
    simp only [chunkLoopAux]
    split
    · next _ => simp [ih]
    · next _ => simp [ih]

theorem chunkLoopAux_sentLen (budget : Nat) :
    ∀ (ss : List (List Char)) (cur : List (List Char)) (curLen : Nat),
      curLen = sentLen cur →
      (cur.length ≤ 1 ∨ sentLen cur ≤ budget) →
      ∀ g ∈ chunkLoopAux budget cur curLen ss,
        g.length = 1 ∨ sentLen g ≤ budget := by
  intro ss
  induction ss with
  | nil =>
    intro cur curLen _ hP g hg
    simp only [chunkLoopAux] at hg
    split at hg
    · simp at hg
    · next h =>
      simp only [List.mem_singleton] at hg
      have hne : cur ≠ [] := fun e => h (by simp [e])
      rcases hP with h1 | h2
      · left
        rw [hg]
        have : 1 ≤ cur.length := List.length_pos.mpr hne
        omega
      · right; rw [hg]; exact h2
  | cons s rest ih =>
    intro cur curLen hlen hP g hg
    simp only [chunkLoopAux] at hg
    split at hg
    · next h =>
      simp only [List.mem_cons] at hg
      rcases hg with hg | hg
      · have hne : cur ≠ [] := fun e => h.2 (by simp [e])
        rcases hP with h1 | h2
        · left
          rw [hg]
          have : 1 ≤ cur.length := List.length_pos.mpr hne
          omega
        · right; rw [hg]; exact h2
      · exact ih [s] s.length (by simp [sentLen]) (by simp) g hg
    · next h =>
      refine ih (cur ++ [s]) (curLen + s.length) ?_ ?_ g hg
      · simp [sentLen, hlen]
      · rcases Decidable.not_and_iff_or_not.mp h with h1 | h2
        · right
          simp only [sentLen, List.map_append, List.sum_append,
            List.map_cons, List.sum_cons, List.map_nil, List.sum_nil]
          simp only [sentLen] at hlen
          omega
        · have hc : cur = [] := List.isEmpty_iff.mp (Decidable.not_not.mp h2)
          left
          simp [hc]

theorem chunkLoopAux_ne_nil (budget : Nat) :
    ∀ (ss : List (List Char)) (cur : List (List Char)) (curLen : Nat),
      ∀ g ∈ chunkLoopAux budget cur curLen ss, g ≠ [] := by
  intro ss
  induction ss with
  | nil =>
    intro cur curLen g hg
    simp only [chunkLoopAux] at hg
    split at hg
    · simp at hg
    · next h =>
      simp only [List.mem_singleton] at hg
      rw [hg]
      exact fun e => h (by simp [e])
  | cons s rest ih =>
    intro cur curLen g hg
    simp only [chunkLoopAux] at hg
    split at hg
    · next h =>
      simp only [List.mem_cons] at hg
      rcases hg with hg | hg
      · rw [hg]
        exact fun e => h.2 (by simp [e])
      · exact ih [s] s.length g hg
    · exact ih (cur ++ [s]) (curLen + s.length) g hg

theorem joinDotSpace_length :
    ∀ g : List (List Char), g ≠ [] →
      (joinDotSpace g).length = sentLen g + 2 * (g.length - 1) := by
  intro g
  induction g with
  | nil => intro h; exact absurd rfl h
  | cons s rest ih =>
    intro _
    cases rest with
    | nil => simp [joinDotSpace, sentLen]
    | cons t rest2 =>
      have h2 := ih (by simp)
      simp only [joinDotSpace, List.length_append, List.length_cons] at h2 ⊢
      simp only [sentLen, List.map_cons, List.sum_cons] at h2 ⊢
      omega

theorem renderChunk_length (g : List (List Char)) (h : g ≠ []) :
    (renderChunk g).length = sentLen g + 2 * (g.length - 1) + 1 := by
  simp [renderChunk, joinDotSpace_length g h]

/-- C4: the chunks of `chunk_text` partition the input's sentence sequence
in order, with no loss or duplication — flattening the chunk groups gives
back exactly `sentencesOf text` — and every chunk is rendered from its
sentence group exactly as `". ".join(sentences) + "."`. -/
theorem chunk_text_partitions (text : List Char) (M : Nat) :
    (chunkGroups (M * 4) (sentencesOf text)).flatten = sentencesOf text ∧
    chunk_text text M
      = (chunkGroups (M * 4) (sentencesOf text)).map
          (fun g => joinDotSpace g ++ ['.']) := by
  constructor
  · exact chunkLoopAux_join (M * 4) (sentencesOf text) [] 0
  · rfl

/-- C3 (counterexample): a chunk of two sentences may exceed the
`max_tokens * 4` character budget, because the loop's `current_length`
counts only the sentences' own characters, not the `". "` separators and
the final `"."` added when the chunk is rendered.  On input `"ab.cd."`
with `max_tokens = 1` (budget 4 characters) the two sentences `"ab"` and
`"cd"` (total 4 ≤ 4) land in one chunk, which renders as `"ab. cd."`,
7 characters > 4. -/
theorem chunk_text_budget_cex :
    chunk_text ['a', 'b', '.', 'c', 'd', '.'] 1
      = [['a', 'b', '.', ' ', 'c', 'd', '.']] ∧
    (['a', 'b', '.', ' ', 'c', 'd', '.'] : List Char).length = 7 ∧
    ¬ (7 : Nat) ≤ 1 * 4 ∧
    chunkGroups (1 * 4) (sentencesOf ['a', 'b', '.', 'c', 'd', '.'])
      = [[['a', 'b'], ['c', 'd']]] := by
  refine ⟨?_, rfl, by decide, ?_⟩ <;> decide

/-- C3 (amended): every chunk produced by `chunk_text(T, M)` either consists
of exactly one sentence (which may then be arbitrarily long), or the total
character count of its sentences is at most `M*4` and its rendered length —
which additionally counts 2 characters per `". "` separator and the final
`"."` — is at most `M*4 + 2*(k-1) + 1`, where `k` is its sentence count. -/
theorem chunk_text_size (text : List Char) (M : Nat)
    (g : List (List Char))
    (hg : g ∈ chunkGroups (M * 4) (sentencesOf text)) :
    g.length = 1 ∨
      (sentLen g ≤ M * 4 ∧
       (renderChunk g).length ≤ M * 4 + 2 * (g.length - 1) + 1) := by
  have hne : g ≠ [] := chunkLoopAux_ne_nil (M * 4) (sentencesOf text) [] 0 g hg
  rcases chunkLoopAux_sentLen (M * 4) (sentencesOf text) [] 0 rfl
      (Or.inl (by simp)) g hg with h1 | h2
  · left; exact h1
  · right
    refine ⟨h2, ?_⟩
    rw [renderChunk_length g hne]
    omega

/-- Small concrete run of the amended C3 bound: on `"ab.cd."` with
`max_tokens = 1` the single chunk group `[["ab"], ["cd"]]` has two
sentences of total length 4 ≤ 4 and renders to 7 ≤ 4 + 2·1 + 1 chars. -/
theorem chunk_text_size_witness :
    [['a', 'b'], ['c', 'd']]
        ∈ chunkGroups (1 * 4) (sentencesOf ['a', 'b', '.', 'c', 'd', '.']) ∧
    (([['a', 'b'], ['c', 'd']] : List (List Char)).length = 1 ∨
      (sentLen [['a', 'b'], ['c', 'd']] ≤ 1 * 4 ∧
       (renderChunk [['a', 'b'], ['c', 'd']]).length
         ≤ 1 * 4 + 2 * (([['a', 'b'], ['c', 'd']] : List (List Char)).length - 1) + 1)) :=
  ⟨by decide,
   chunk_text_size ['a', 'b', '.', 'c', 'd', '.'] 1 [['a', 'b'], ['c', 'd']]
     (by decide)⟩

/-! ## Job requirements and lower-casing -/

/-- The job-requirements dict consumed by every scoring stage
(`title`, `required_skills`, `experience`, `education`). -/
structure Requirements where
  title : List Char
  required_skills : List (List Char)
  experience : List Char
  education : List Char
deriving DecidableEq

/-- Python `s.lower()` (ASCII case folding, as `Char.toLower`). -/
def lowerChars (l : List Char) : List Char :=
  l.map Char.toLower

theorem char_toNat_ofNat_of_valid (n : Nat) (h : n.isValidChar) :
    (Char.ofNat n).toNat = n := by
  simp only [Char.ofNat, dif_pos h, Char.ofNatAux, Char.toNat]
  rfl

theorem toLower_toLower (c : Char) : c.toLower.toLower = c.toLower := by
  by_cases h : c.toNat ≥ 65 ∧ c.toNat ≤ 90
  · have hv : (c.toNat + 32).isValidChar := Or.inl (by omega)
    have h1 : c.toLower = Char.ofNat (c.toNat + 32) := by
      unfold Char.toLower
      exact if_pos h
    have h2 : (Char.ofNat (c.toNat + 32)).toNat = c.toNat + 32 :=
      char_toNat_ofNat_of_valid _ hv
    rw [h1]
    unfold Char.toLower
    rw [h2, if_neg (by omega)]
  · have h1 : c.toLower = c := by
      unfold Char.toLower
      exact if_neg h
    rw [h1, h1]

theorem lowerChars_idem (l : List Char) :
    lowerChars (lowerChars l) = lowerChars l := by
  simp only [lowerChars, List.map_map]
  exact List.map_congr_left (fun c _ => toLower_toLower c)

/-! ## ranking.py : `rank_candidates` -/

/-- A candidate dict as passed to `RankingEngine.rank_candidates`.  Keys
read with `.get` may be absent (`Option` fields); `rest` stands for every
other key of the dict (name, reasoning, …), untouched by ranking. -/
structure Candidate (α : Type) where
  matching_skills : Option (List (List Char))
  missing_skills : Option (List (List Char))
  experience_match : Option ℚ
  education_match : Option ℚ
  overall_score : Option ℚ
  skills_match : Option ℚ
  rest : α

/-- The ranking engine's weighted overall score (`ranking.py` lines 48-52):
`skills_match * 50 + experience_match * 30 + education_match * 20`. -/
def overallScoreRank (skills_match experience_match education_match : ℚ) : ℚ :=
  skills_match * 50 + experience_match * 30 + education_match * 20

/-- The overall score computed inside `processor.analyze_resume`
(lines 316-321): `(skills_score*0.5 + experience_match*0.3 +
education_match*0.2) * 100`. -/
def overallScoreAnalyze (skills_score experience_match education_match : ℚ) : ℚ :=
  (skills_score * 0.5 + experience_match * 0.3 + education_match * 0.2) * 100

/-- The skills ratio of `rank_candidates` (lines 38-42):
`len(matching_skills) / len(required_skills)` when there are required
skills, else 0. -/
def skillsMatchRatio {α : Type} (totalRequired : Nat) (c : Candidate α) : ℚ :=
  if totalRequired > 0 then
    ((c.matching_skills.getD []).length : ℚ) / (totalRequired : ℚ)
  else 0

/-- The per-candidate mutation of `rank_candidates` (lines 36-55): write the
keys `overall_score` and `skills_match`, leaving every other key alone. -/
def addScores {α : Type} (totalRequired : Nat) (c : Candidate α) : Candidate α :=
  let skills_match := skillsMatchRatio totalRequired c
  let experience_match := c.experience_match.getD 0
  let education_match := c.education_match.getD 0
  { c with
    overall_score :=
      some (overallScoreRank skills_match experience_match education_match),
    skills_match := some (skills_match * 100) }

/-- The sort key of `rank_candidates` (lines 60-64), ordered
lexicographically: `(overall_score, len(matching_skills),
-len(missing_skills))`. -/
def sortKey {α : Type} (c : Candidate α) : ℚ ×ₗ ℕ ×ₗ ℤ :=
  toLex (c.overall_score.getD 0,
    toLex ((c.matching_skills.getD []).length,
      -((c.missing_skills.getD []).length : ℤ)))

/-- `sorted(..., reverse=True)` orders by descending key: `c` may come
before `d` iff `d`'s key is at most `c`'s. -/
def rankLE {α : Type} (c d : Candidate α) : Prop :=
  sortKey d ≤ sortKey c

instance {α : Type} : DecidableRel (@rankLE α) :=
  fun c d => inferInstanceAs (Decidable (sortKey d ≤ sortKey c))

instance {α : Type} : IsTotal (Candidate α) rankLE :=
  ⟨fun a b => le_total (sortKey b) (sortKey a)⟩

instance {α : Type} : IsTrans (Candidate α) rankLE :=
  ⟨fun _ _ _ h h' => le_trans h' h⟩

/-- `RankingEngine.rank_candidates`: score every candidate, then sort by
the descending key.  (Python's `sorted` is modelled by a sort that is
correct for the same total preorder.) -/
def rank_candidates {α : Type} (requirements : Requirements)
    (candidates : List (Candidate α)) : List (Candidate α) :=
  List.insertionSort rankLE
    (candidates.map (addScores requirements.required_skills.length))

/-- C5: `rank_candidates` returns the (score-annotated) candidates sorted in
descending lexicographic order of `(overall_score, len(matching_skills),
-len(missing_skills))`: any candidate placed before another has a key at
least as large, so on equal scores more matching skills rank higher, and on
equal scores and matching counts fewer missing skills rank higher; the
output is a permutation of the annotated input. -/
theorem rank_candidates_sorted {α : Type} (requirements : Requirements)
    (candidates : List (Candidate α)) :
    List.Pairwise (fun c d => sortKey d ≤ sortKey c)
        (rank_candidates requirements candidates) ∧
    List.Perm (rank_candidates requirements candidates)
      (candidates.map (addScores requirements.required_skills.length)) := by
  constructor
  · exact List.sorted_insertionSort rankLE _
  · exact List.perm_insertionSort rankLE _

/-- C6: the two overall-score formulas of the source agree — the
`analyze_resume` formula `(s*0.5 + e*0.3 + d*0.2) * 100` and the
`rank_candidates` formula `s*50 + e*30 + d*20` compute the same rational
for all inputs. -/
theorem overall_score_formulas_agree (s e d : ℚ) :
    overallScoreAnalyze s e d = overallScoreRank s e d := by
  unfold overallScoreAnalyze overallScoreRank
  ring_nf

/-- C10: `rank_candidates` returns exactly the input candidates, reordered,
each updated only in the keys `overall_score` (set to the weighted 0-100
score) and `skills_match` (set to the skills ratio × 100); every other key
of every candidate is unchanged. -/
theorem rank_candidates_frame {α : Type} (requirements : Requirements)
    (candidates : List (Candidate α)) :
    List.Perm (rank_candidates requirements candidates)
      (candidates.map (addScores requirements.required_skills.length)) ∧
    ∀ c : Candidate α,
      (addScores requirements.required_skills.length c).matching_skills
          = c.matching_skills ∧
      (addScores requirements.required_skills.length c).missing_skills
          = c.missing_skills ∧
      (addScores requirements.required_skills.length c).experience_match
          = c.experience_match ∧
      (addScores requirements.required_skills.length c).education_match
          = c.education_match ∧
      (addScores requirements.required_skills.length c).rest = c.rest ∧
      (addScores requirements.required_skills.length c).overall_score
          = some (overallScoreRank
              (skillsMatchRatio requirements.required_skills.length c)
              (c.experience_match.getD 0) (c.education_match.getD 0)) ∧
      (addScores requirements.required_skills.length c).skills_match
          = some (skillsMatchRatio requirements.required_skills.length c * 100) := by
  refine ⟨List.perm_insertionSort rankLE _, ?_⟩
  intro c
  exact ⟨rfl, rfl, rfl, rfl, rfl, rfl, rfl⟩

/-! ## ranking.py : `_normalize_scores` -/

/-- An LLM response dict as consumed by `_normalize_scores`; every key may
be absent (read with `.get`). -/
structure LLMScores where
  matching_skills : Option (List (List Char))
  missing_skills : Option (List (List Char))
  experience_match : Option ℚ
  education_match : Option ℚ
deriving DecidableEq

/-- The dict returned by `_normalize_scores` and by the per-chunk default
of `_process_chunk`. -/
structure NormalizedScores where
  matching_skills : List (List Char)
  missing_skills : List (List Char)
  experience_match : ℚ
  education_match : ℚ
deriving DecidableEq

/-- `RankingEngine._normalize_scores` (ranking.py lines 115-137): keep only
reported skills that occur (case-insensitively) among the required skills,
lower-cased; clamp the two match scores into `[0, 1]`; recompute
`missing_skills` as the lower-cased required skills not among the kept
matching skills. -/
def normalize_scores (result : LLMScores) (requirements : Requirements) :
    NormalizedScores :=
  let requiredLower := requirements.required_skills.map lowerChars
  let matching :=
    ((result.matching_skills.getD []).filter
      (fun skill => lowerChars skill ∈ requiredLower)).map lowerChars
  let missing :=
    requiredLower.filter (fun skill => skill ∉ matching.map lowerChars)
  { matching_skills := matching,
    missing_skills := missing,
    experience_match := min (max (result.experience_match.getD 0) 0) 1,
    education_match := min (max (result.education_match.getD 0) 0) 1 }

/-- C9: `_normalize_scores` clamps `experience_match` and `education_match`
into `[0, 1]`, and its `matching_skills` contains only lower-cased skills
that occur case-insensitively among the required skills — any skill the
LLM reported that is not required is dropped. -/
theorem normalize_scores_spec (result : LLMScores) (requirements : Requirements) :
    0 ≤ (normalize_scores result requirements).experience_match ∧
    (normalize_scores result requirements).experience_match ≤ 1 ∧
    0 ≤ (normalize_scores result requirements).education_match ∧
    (normalize_scores result requirements).education_match ≤ 1 ∧
    ∀ s ∈ (normalize_scores result requirements).matching_skills,
      s ∈ requirements.required_skills.map lowerChars := by
  refine ⟨?_, ?_, ?_, ?_, ?_⟩
  · exact le_min (le_max_right _ _) zero_le_one
  · exact min_le_right _ _
  · exact le_min (le_max_right _ _) zero_le_one
  · exact min_le_right _ _
  · intro s hs
    simp only [normalize_scores, List.mem_map, List.mem_filter,
      decide_eq_true_eq] at hs
    obtain ⟨x, ⟨_, hx⟩, rfl⟩ := hs
    simpa using hx

/-! ## processor.py : `analyze_resume` -/

/-- One parsed work-experience entry (`_extract_experience`). -/
structure ExperienceEntry where
  title : List Char
  company : List Char
  period : List Char
  description : List Char
deriving DecidableEq

/-- The dict produced by `preprocess_resume` and fed to `analyze_resume`. -/
structure ExtractedInfo where
  skills : List (List Char)
  experience : List ExperienceEntry
  education : List Char
  summary : List Char
deriving DecidableEq

/-- The JSON object `analyze_resume` parses out of the LLM response; each
of the five requested keys may be absent. -/
structure RawAnalysis where
  matching_skills : Option (List (List Char))
  missing_skills : Option (List (List Char))
  experience_match : Option ℚ
  education_match : Option ℚ
  reasoning : Option (List Char)
deriving DecidableEq

/-- Outcome of the LLM call inside `analyze_resume`: either it failed
before yielding a JSON object (transport error, timeout, malformed JSON),
or it produced one. -/
inductive AnalyzeLLM where
  | failure
  | parsed (r : RawAnalysis)
deriving DecidableEq

/-- The dict `analyze_resume` returns. -/
structure AnalysisResult where
  matching_skills : List (List Char)
  missing_skills : List (List Char)
  experience_match : ℚ
  education_match : ℚ
  reasoning : List Char
  overall_score : ℚ
  preprocessed_info : ExtractedInfo
deriving DecidableEq

/-- The literal string `"Failed to analyze resume"`. -/
def failedReasoning : List Char :=
  ['F', 'a', 'i', 'l', 'e', 'd', ' ', 't', 'o', ' ', 'a', 'n', 'a', 'l',
   'y', 'z', 'e', ' ', 'r', 'e', 's', 'u', 'm', 'e']

/-- `ResumeProcessor._get_default_scores` (processor.py lines 382-392). -/
def default_scores (requirements : Requirements)
    (extracted_info : ExtractedInfo) : AnalysisResult :=
  { matching_skills := [],
    missing_skills := requirements.required_skills,
    experience_match := 0,
    education_match := 0,
    overall_score := 0,
    reasoning := failedReasoning,
    preprocessed_info := extracted_info }

/-- `ResumeProcessor.analyze_resume` (processor.py lines 275-333): on a
parsed response carrying all five required keys, keep the LLM's fields
as-is and add the weighted overall score; on any failure — transport
error, malformed JSON, or a missing key — fall back to the default
scores. -/
def analyze_resume (extracted_info : ExtractedInfo)
    (requirements : Requirements) (llm : AnalyzeLLM) : AnalysisResult :=
  match llm with
  | .failure => default_scores requirements extracted_info
  | .parsed r =>
    match r.matching_skills, r.missing_skills, r.experience_match,
        r.education_match, r.reasoning with
    | some ms, some mis, some e, some d, some reas =>
      let num := requirements.required_skills.length
      let skills_score : ℚ := if num > 0 then (ms.length : ℚ) / (num : ℚ) else 0
      { matching_skills := ms,
        missing_skills := mis,
        experience_match := e,
        education_match := d,
        reasoning := reas,
        overall_score := overallScoreAnalyze skills_score e d,
        preprocessed_info := extracted_info }
    | _, _, _, _, _ => default_scores requirements extracted_info

/-- The failure modes of the LLM call inside `analyze_resume`: the call or
the JSON parse failed, or the parsed object misses one of the five
required keys. -/
def llmFailed (llm : AnalyzeLLM) : Prop :=
  llm = .failure ∨
  ∃ r, llm = .parsed r ∧
    (r.matching_skills = none ∨ r.missing_skills = none ∨
     r.experience_match = none ∨ r.education_match = none ∨
     r.reasoning = none)

instance (llm : AnalyzeLLM) : Decidable (llmFailed llm) := by
  unfold llmFailed
  cases llm with
  | failure => exact .isTrue (Or.inl rfl)
  | parsed r =>
    by_cases h : r.matching_skills = none ∨ r.missing_skills = none ∨
        r.experience_match = none ∨ r.education_match = none ∨
        r.reasoning = none
    · exact .isTrue (Or.inr ⟨r, rfl, h⟩)
    · refine .isFalse ?_
      rintro (hc | ⟨r2, he, h2⟩)
      · exact AnalyzeLLM.noConfusion hc
      · cases he
        exact h h2

/-- C2: whenever the LLM call inside `analyze_resume` fails in any way, the
function returns exactly the deterministic default result — empty
`matching_skills`, `missing_skills` equal to the full required-skills
list, zero experience and education match, zero overall score, and the
literal reasoning string `"Failed to analyze resume"` — and never raises
to the caller (the embedding is a total function). -/
theorem analyze_resume_fallback (extracted_info : ExtractedInfo)
    (requirements : Requirements) (llm : AnalyzeLLM)
    (h : llmFailed llm) :
    analyze_resume extracted_info requirements llm
        = default_scores requirements extracted_info ∧
    (analyze_resume extracted_info requirements llm).matching_skills = [] ∧
    (analyze_resume extracted_info requirements llm).missing_skills
        = requirements.required_skills ∧
    (analyze_resume extracted_info requirements llm).experience_match = 0 ∧
    (analyze_resume extracted_info requirements llm).education_match = 0 ∧
    (analyze_resume extracted_info requirements llm).overall_score = 0 ∧
    (analyze_resume extracted_info requirements llm).reasoning
        = failedReasoning := by
  have hd : analyze_resume extracted_info requirements llm
      = default_scores requirements extracted_info := by
    rcases h with rfl | ⟨r, rfl, hf⟩
    · rfl
    · obtain ⟨ms, mis, e, d, reas⟩ := r
      cases ms <;> cases mis <;> cases e <;> cases d <;> cases reas <;>
        simp_all [analyze_resume]
  rw [hd]
  exact ⟨rfl, rfl, rfl, rfl, rfl, rfl, rfl⟩

/-- A fixed requirements value used to instantiate the theorems with
hypotheses at concrete inputs. -/
def reqsPython : Requirements :=
  { title := [],
    required_skills := [['p', 'y', 't', 'h', 'o', 'n']],
    experience := [],
    education := [] }

/-- A fixed empty extraction used to instantiate the theorems with
hypotheses at concrete inputs. -/
def infoEmpty : ExtractedInfo :=
  { skills := [], experience := [], education := [], summary := [] }

/-- Concrete run of C2: a transport failure yields precisely the default
result with reasoning `"Failed to analyze resume"`. -/
theorem analyze_resume_fallback_witness :
    llmFailed .failure ∧
    (analyze_resume infoEmpty reqsPython .failure).matching_skills = [] ∧
    (analyze_resume infoEmpty reqsPython .failure).missing_skills
        = [['p', 'y', 't', 'h', 'o', 'n']] ∧
    (analyze_resume infoEmpty reqsPython .failure).overall_score = 0 ∧
    (analyze_resume infoEmpty reqsPython .failure).reasoning
        = failedReasoning :=
  ⟨Or.inl rfl,
   (analyze_resume_fallback infoEmpty reqsPython .failure (Or.inl rfl)).2.1,
   (analyze_resume_fallback infoEmpty reqsPython .failure (Or.inl rfl)).2.2.1,
   (analyze_resume_fallback infoEmpty reqsPython .failure (Or.inl rfl)).2.2.2.2.2.1,
   (analyze_resume_fallback infoEmpty reqsPython .failure (Or.inl rfl)).2.2.2.2.2.2⟩

/-! ## processor.py : `calculate_match_score` and its per-chunk aggregation -/

/-- A per-chunk result dict, as returned by `_process_chunk`: the raw
parsed JSON (keys may be absent — they are read with `.get` during
aggregation), or the per-chunk default on failure. -/
structure ChunkResult where
  matching_skills : Option (List (List Char))
  missing_skills : Option (List (List Char))
  experience_match : Option ℚ
  education_match : Option ℚ
deriving DecidableEq

/-- `ResumeProcessor._process_chunk` (processor.py lines 140-181): return
the parsed LLM dict unvalidated, or the per-chunk default when the call or
the parse failed. -/
def process_chunk (requirements : Requirements)
    (llm : Option ChunkResult) : ChunkResult :=
  match llm with
  | some r => r
  | none =>
    { matching_skills := some [],
      missing_skills := some requirements.required_skills,
      experience_match := some 0,
      education_match := some 0 }

/-- The aggregate returned by `calculate_match_score`; `matching_skills`
and `missing_skills` are Python `set`s. -/
structure MatchScores where
  matching_skills : Finset (List Char)
  missing_skills : Finset (List Char)
  experience_match : ℚ
  education_match : ℚ
deriving DecidableEq

/-- One iteration of the aggregation loop of `calculate_match_score`
(processor.py lines 103-123): `all_skills.update(...)`, and the running
maxima of `experience_match` and `education_match`. -/
def chunkFold (st : Finset (List Char) × ℚ × ℚ) (r : ChunkResult) :
    Finset (List Char) × ℚ × ℚ :=
  (st.1 ∪ (r.matching_skills.getD []).toFinset,
   max st.2.1 (r.experience_match.getD 0),
   max st.2.2 (r.education_match.getD 0))

/-- The aggregation of `calculate_match_score` (processor.py lines 99-134)
over a list of per-chunk results: union of matching skills, maxima of the
two match scores, and `missing_skills = set(required_skills) - all_skills`
(an exact, case-sensitive set difference). -/
def aggregate_chunks (requirements : Requirements)
    (results : List ChunkResult) : MatchScores :=
  let st := results.foldl chunkFold (∅, 0, 0)
  { matching_skills := st.1,
    missing_skills := requirements.required_skills.toFinset \ st.1,
    experience_match := st.2.1,
    education_match := st.2.2 }

/-- `ResumeProcessor.calculate_match_score` (processor.py lines 93-138):
chunk the resume text, run each chunk through `_process_chunk` (whose LLM
outcome is the oracle `llm`), and aggregate. -/
def calculate_match_score (requirements : Requirements)
    (llm : List Char → Option ChunkResult) (resume_text : List Char) :
    MatchScores :=
  aggregate_chunks requirements
    ((chunk_text resume_text 4000).map
      (fun chunk => process_chunk requirements (llm chunk)))

instance : RightCommutative chunkFold where
  right_comm := by
    intro b a₁ a₂
    simp only [chunkFold]
    refine congrArg₂ Prod.mk ?_ (congrArg₂ Prod.mk ?_ ?_)
    · exact Finset.union_right_comm _ _ _
    · exact sup_right_comm _ _ _
    · exact sup_right_comm _ _ _

/-- C7: the per-chunk aggregation of `calculate_match_score` is
order-independent — permuting the per-chunk results leaves the aggregated
matching-skill set, the maximal experience match, the maximal education
match (and hence also the recomputed missing-skill set) unchanged, because
set union and maximum are commutative. -/
theorem aggregate_chunks_perm (requirements : Requirements)
    {results₁ results₂ : List ChunkResult}
    (h : List.Perm results₁ results₂) :
    aggregate_chunks requirements results₁
      = aggregate_chunks requirements results₂ := by
  unfold aggregate_chunks
  rw [h.foldl_eq]

/-- Two fixed per-chunk results used to instantiate C7 concretely. -/
def chunkResA : ChunkResult :=
  { matching_skills := some [['p', 'y', 't', 'h', 'o', 'n']],
    missing_skills := some [],
    experience_match := some (1 / 2),
    education_match := some 0 }

/-- Second fixed per-chunk result for the C7 instantiation. -/
def chunkResB : ChunkResult :=
  { matching_skills := some [['j', 'a', 'v', 'a']],
    missing_skills := some [['p', 'y', 't', 'h', 'o', 'n']],
    experience_match := some 1,
    education_match := some (1 / 4) }

/-- Concrete run of C7: swapping two per-chunk results does not change the
aggregate. -/
theorem aggregate_chunks_perm_witness :
    aggregate_chunks reqsPython [chunkResA, chunkResB]
      = aggregate_chunks reqsPython [chunkResB, chunkResA] :=
  aggregate_chunks_perm reqsPython (List.Perm.swap chunkResB chunkResA [])

/-! ## processor.py : `load_resume` -/

/-- The basename of a POSIX path: everything after the last `'/'`. -/
def basenameOf (p : List Char) : List Char :=
  (p.reverse.takeWhile (fun c => c ≠ '/')).reverse

/-- The extension part of `os.path.splitext` on a basename `b`: the suffix
from the last `'.'` on, unless every character before that dot is itself a
dot (so that `".bashrc"` has no extension). -/
def extOf (b : List Char) : List Char :=
  if '.' ∈ b then
    let ext := '.' :: (b.reverse.takeWhile (fun c => c ≠ '.')).reverse
    let stem := b.take (b.length - ext.length)
    if stem.any (fun c => c ≠ '.') then ext else []
  else []

/-- `os.path.splitext(file_path)[1].lower()` (processor.py line 49). -/
def pyExtension (file_path : List Char) : List Char :=
  lowerChars (extOf (basenameOf file_path))

/-- The message prefix of the `ValueError` raised for unsupported formats:
`"Unsupported file format: "`. -/
def unsupportedMsg : List Char :=
  ['U', 'n', 's', 'u', 'p', 'p', 'o', 'r', 't', 'e', 'd', ' ', 'f', 'i',
   'l', 'e', ' ', 'f', 'o', 'r', 'm', 'a', 't', ':', ' ']

/-- `ResumeProcessor.load_resume` (processor.py lines 47-59), with the text
the external document loaders would extract supplied as oracles `pdfText`
and `docxText`: dispatch on the lower-cased extension, raising (returning)
a `ValueError` carrying the extension for anything that is not `.pdf`,
`.docx` or `.doc`. -/
def load_resume (pdfText docxText : List Char → List Char)
    (file_path : List Char) : Except (List Char) (List Char) :=
  let file_extension := pyExtension file_path
  if file_extension = ['.', 'p', 'd', 'f'] then
    Except.ok (pdfText file_path)
  else if file_extension = ['.', 'd', 'o', 'c', 'x'] ∨
      file_extension = ['.', 'd', 'o', 'c'] then
    Except.ok (docxText file_path)
  else
    Except.error (unsupportedMsg ++ file_extension)

/-- C8: for every file path whose lower-cased extension is not `.pdf`,
`.docx` or `.doc`, `load_resume` fails with the unsupported-format error
carrying that extension, and does not return a text result — whatever the
document loaders would have produced. -/
theorem load_resume_unsupported (pdfText docxText : List Char → List Char)
    (file_path : List Char)
    (h : pyExtension file_path
      ∉ [['.', 'p', 'd', 'f'], ['.', 'd', 'o', 'c', 'x'], ['.', 'd', 'o', 'c']]) :
    load_resume pdfText docxText file_path
      = Except.error (unsupportedMsg ++ pyExtension file_path) := by
  simp only [List.mem_cons, List.mem_singleton, not_or] at h
  obtain ⟨h1, h2, h3⟩ := h
  simp [load_resume, h1, h2, h3]

/-- Concrete run of C8: a `.txt` resume is rejected with the error message
`"Unsupported file format: .txt"`. -/
theorem load_resume_unsupported_witness :
    pyExtension ['r', '.', 't', 'x', 't']
      ∉ [['.', 'p', 'd', 'f'], ['.', 'd', 'o', 'c', 'x'], ['.', 'd', 'o', 'c']] ∧
    load_resume id id ['r', '.', 't', 'x', 't']
      = Except.error
          (unsupportedMsg ++ ['.', 't', 'x', 't']) := by
  refine ⟨by decide, ?_⟩
  have h := load_resume_unsupported id id ['r', '.', 't', 'x', 't'] (by decide)
  rw [h]
  rfl

/-! ## The missing-skills invariant (C1) -/

/-- The case-insensitive set denoted by a skill list: its elements,
lower-cased, as a finite set. -/
def ciSet (l : List (List Char)) : Finset (List Char) :=
  (l.map lowerChars).toFinset

/-- The spec's invariant: `missing_skills = required_skills −
matching_skills` as sets, compared case-insensitively. -/
def ciMissingInvariant (required matching missing : List (List Char)) : Prop :=
  ciSet missing = ciSet required \ ciSet matching

instance (required matching missing : List (List Char)) :
    Decidable (ciMissingInvariant required matching missing) :=
  inferInstanceAs (Decidable (ciSet missing = ciSet required \ ciSet matching))

theorem filterNotMem_lower (RL MM : List (List Char))
    (hRL : ∀ x ∈ RL, lowerChars x = x) :
    ((RL.filter (fun s => s ∉ MM)).map lowerChars).toFinset
      = RL.toFinset \ MM.toFinset := by
  have hmap : (RL.filter (fun s => s ∉ MM)).map lowerChars
      = List.map id (RL.filter (fun s => s ∉ MM)) :=
    List.map_congr_left (fun x hx => hRL x (List.mem_of_mem_filter hx))
  rw [hmap, List.map_id]
  ext s
  simp [List.mem_filter]

theorem normalize_scores_missing (result : LLMScores)
    (requirements : Requirements) :
    ciMissingInvariant requirements.required_skills
      (normalize_scores result requirements).matching_skills
      (normalize_scores result requirements).missing_skills := by
  have hRL : ∀ x ∈ requirements.required_skills.map lowerChars,
      lowerChars x = x := by
    intro x hx
    simp only [List.mem_map] at hx
    obtain ⟨y, _, rfl⟩ := hx
    exact lowerChars_idem y
  exact filterNotMem_lower _ _ hRL

/-- A parsed LLM response whose `missing_skills` claim (`["java"]`) is
inconsistent with its `matching_skills` (`["python"]`) under the job's
required skills (`["python"]`). -/
def rawJava : RawAnalysis :=
  { matching_skills := some [['p', 'y', 't', 'h', 'o', 'n']],
    missing_skills := some [['j', 'a', 'v', 'a']],
    experience_match := some 1,
    education_match := some 1,
    reasoning := some [] }

/-- C1 (counterexample): `analyze_resume` does not recompute
`missing_skills` — it returns whatever list the LLM supplied.  With
required skills `["python"]` and an LLM response matching `["python"]`
but claiming missing `["java"]`, the returned `missing_skills` is
`["java"]`, while the case-insensitive set difference
`required − matching` is empty, so the invariant fails. -/
theorem missing_skills_invariant_cex :
    (analyze_resume infoEmpty reqsPython (.parsed rawJava)).missing_skills
        = [['j', 'a', 'v', 'a']] ∧
    ¬ ciMissingInvariant reqsPython.required_skills
        (analyze_resume infoEmpty reqsPython (.parsed rawJava)).matching_skills
        (analyze_resume infoEmpty reqsPython (.parsed rawJava)).missing_skills := by
  constructor
  · rfl
  · decide

/-- C1 (amended): the invariant `missing_skills = required_skills −
matching_skills` (case-insensitive set difference) holds for the output of
`_normalize_scores`; `calculate_match_score`'s aggregation also recomputes
`missing_skills`, but as the exact, case-sensitive set difference of the
required skills minus the aggregated matching skills; and `analyze_resume`
does not recompute `missing_skills` at all — on a complete LLM response it
returns the LLM's `matching_skills` and `missing_skills` unchanged. -/
theorem missing_skills_normalization (result : LLMScores)
    (requirements : Requirements) (chunkResults : List ChunkResult)
    (extracted_info : ExtractedInfo) (ms mis : List (List Char))
    (e d : ℚ) (reas : List Char) :
    ciMissingInvariant requirements.required_skills
        (normalize_scores result requirements).matching_skills
        (normalize_scores result requirements).missing_skills ∧
    (aggregate_chunks requirements chunkResults).missing_skills
        = requirements.required_skills.toFinset
            \ (aggregate_chunks requirements chunkResults).matching_skills ∧
    (analyze_resume extracted_info requirements
        (.parsed ⟨some ms, some mis, some e, some d, some reas⟩)).matching_skills
        = ms ∧
    (analyze_resume extracted_info requirements
        (.parsed ⟨some ms, some mis, some e, some d, some reas⟩)).missing_skills
        = mis :=
  ⟨normalize_scores_missing result requirements, rfl, rfl, rfl⟩

end ATS
